import Mathlib

/-!
Shallow embedding of the document-ingestion core of the gptr-mcp repository
(`security_utils.py`, `document_loader_components.py`, `document_loader_secure.py`)
together with theorems settling the frozen claims about its specification.

Modelling conventions:
* machine text is `String`/`List Char` (Unicode scalar values), file contents are
  `List Nat` byte lists;
* Python exceptions become `Except PyErr`, where `PyErr` carries the exception
  class (`ErrKind`) and the message payload the exception was constructed with;
* the filesystem is a partial map from resolved absolute paths (component lists)
  to file bytes; the world is symlink-free, so `Path.resolve()` is the lexical
  normalization of `.` and `..` segments against a current working directory;
* `asyncio` scheduling is irrelevant to the claims (every awaited call is a
  plain call), so the embedding is sequential.
-/

namespace GptrMcp

/-- A byte, kept as a `Nat`; file contents are byte lists. -/
abbrev Bytes := List Nat

/-- The Python exception classes that the source raises or dispatches on.
`securityOther` is a plain `SecurityError` (e.g. the wrapper raised by
`safe_read_file` when the underlying read fails); `otherErr` is any class not
in `sanitize_error_message`'s table. -/
inductive ErrKind where
  | fileNotFound
  | permissionDenied
  | isADirectory
  | pathTraversal
  | fileSize
  | unicodeDecode
  | memoryExhausted
  | timedOut
  | securityOther
  | otherErr
deriving DecidableEq, Repr

/-- A raised Python exception: its class and the message string it was built
with (which, in the source, may embed path fragments). -/
structure PyErr where
  kind : ErrKind
  payload : String
deriving DecidableEq, Repr

/-- Is the exception a `SecurityError` (base class of `PathTraversalError` and
`FileSizeError` in `security_utils.py`)? Used to mirror `except SecurityError`
handlers. -/
def isSecurityErr (k : ErrKind) : Bool :=
  match k with
  | .pathTraversal => true
  | .fileSize => true
  | .securityOther => true
  | _ => false

/-! ## Text codecs

`TextDocumentProcessor.process` tries `utf-8`, `utf-8-sig`, `latin-1`,
`cp1252`, `iso-8859-1` in order; the secure variant tries the first three.
Python codecs are strict: decoding raises `UnicodeDecodeError` on the first
invalid sequence, modelled here as `Option` results. -/

/-- Decode one strict-UTF-8 sequence from the front, returning the code
point and the remaining bytes. Mirrors CPython's strict `utf-8` codec on a
single sequence: rejects overlong forms, surrogates, code points above
`0x10FFFF`, truncated sequences and stray continuation bytes. -/
def utf8DecodeOne : List Nat → Option (Nat × List Nat)
  | [] => none
  | b :: rest =>
    if b < 0x80 then some (b, rest)
    else if 0xC2 ≤ b ∧ b ≤ 0xDF then
      match rest with
      | b2 :: rest2 =>
        if 0x80 ≤ b2 ∧ b2 ≤ 0xBF then some ((b - 0xC0) * 64 + (b2 - 0x80), rest2) else none
      | [] => none
    else if 0xE0 ≤ b ∧ b ≤ 0xEF then
      match rest with
      | b2 :: b3 :: rest2 =>
        if (0x80 ≤ b2 ∧ b2 ≤ 0xBF) ∧ (0x80 ≤ b3 ∧ b3 ≤ 0xBF) then
          let cp := (b - 0xE0) * 4096 + (b2 - 0x80) * 64 + (b3 - 0x80)
          if 0x800 ≤ cp ∧ (cp < 0xD800 ∨ 0xDFFF < cp) then some (cp, rest2) else none
        else none
      | _ => none
    else if 0xF0 ≤ b ∧ b ≤ 0xF4 then
      match rest with
      | b2 :: b3 :: b4 :: rest2 =>
        if (0x80 ≤ b2 ∧ b2 ≤ 0xBF) ∧ ((0x80 ≤ b3 ∧ b3 ≤ 0xBF) ∧ (0x80 ≤ b4 ∧ b4 ≤ 0xBF)) then
          let cp := (b - 0xF0) * 262144 + (b2 - 0x80) * 4096 + (b3 - 0x80) * 64 + (b4 - 0x80)
          if 0x10000 ≤ cp ∧ cp < 0x110000 then some (cp, rest2) else none
        else none
      | _ => none
    else none

/-- Run `utf8DecodeOne` to exhaustion. The fuel is only a structural-
recursion device: each step consumes at least one byte, so any fuel at
least the byte count gives the same result (proved below), and the entry
point always passes the byte count. -/
def utf8DecodeCore : Nat → List Nat → Option (List Nat)
  | _, [] => some []
  | 0, _ :: _ => none
  | fuel + 1, b :: rest =>
    match utf8DecodeOne (b :: rest) with
    | none => none
    | some (cp, rest2) => (utf8DecodeCore fuel rest2).map (fun cs => cp :: cs)

/-- Strict UTF-8 decoding of a whole byte string to code points. -/
def utf8DecodeAux (bs : List Nat) : Option (List Nat) :=
  utf8DecodeCore bs.length bs

/-- Strict UTF-8 decoding to characters. -/
def utf8Decode (bs : Bytes) : Option (List Char) :=
  (utf8DecodeAux bs).map (fun cs => cs.map Char.ofNat)

/-- UTF-8 encoding of one Unicode scalar value. -/
def utf8EncodeCp (n : Nat) : List Nat :=
  if n < 0x80 then [n]
  else if n < 0x800 then [0xC0 + n / 64, 0x80 + n % 64]
  else if n < 0x10000 then [0xE0 + n / 4096, 0x80 + n / 64 % 64, 0x80 + n % 64]
  else [0xF0 + n / 262144, 0x80 + n / 4096 % 64, 0x80 + n / 64 % 64, 0x80 + n % 64]

/-- UTF-8 encoding of a character list (what Python writes for a `str`). -/
def utf8Encode (s : List Char) : Bytes :=
  (s.map (fun c => utf8EncodeCp c.toNat)).flatten

/-- The `latin-1` (= `iso-8859-1`) codec: every byte decodes to the character
with the same code point, so decoding never fails. -/
def latin1Decode (bs : Bytes) : List Char :=
  bs.map Char.ofNat

/-- The `cp1252` mapping for one byte: bytes `0x80`–`0x9F` go through the
Windows-1252 table (five of them are undefined and make the codec fail),
all other bytes map to themselves. -/
def cp1252Byte (b : Nat) : Option Nat :=
  if b < 0x80 ∨ 0x9F < b then some b
  else match b with
    | 0x80 => some 0x20AC
    | 0x82 => some 0x201A
    | 0x83 => some 0x0192
    | 0x84 => some 0x201E
    | 0x85 => some 0x2026
    | 0x86 => some 0x2020
    | 0x87 => some 0x2021
    | 0x88 => some 0x02C6
    | 0x89 => some 0x2030
    | 0x8A => some 0x0160
    | 0x8B => some 0x2039
    | 0x8C => some 0x0152
    | 0x8E => some 0x017D
    | 0x91 => some 0x2018
    | 0x92 => some 0x2019
    | 0x93 => some 0x201C
    | 0x94 => some 0x201D
    | 0x95 => some 0x2022
    | 0x96 => some 0x2013
    | 0x97 => some 0x2014
    | 0x98 => some 0x02DC
    | 0x99 => some 0x2122
    | 0x9A => some 0x0161
    | 0x9B => some 0x203A
    | 0x9C => some 0x0153
    | 0x9E => some 0x017E
    | 0x9F => some 0x0178
    | _ => none

/-- The `cp1252` codec. -/
def cp1252Decode : Bytes → Option (List Char)
  | [] => some []
  | b :: rest =>
    match cp1252Byte b with
    | none => none
    | some cp => (cp1252Decode rest).map (fun cs => Char.ofNat cp :: cs)

/-- The `utf-8-sig` codec: strips one leading byte-order mark if present,
then decodes as strict UTF-8. -/
def utf8SigDecode (bs : Bytes) : Option (List Char) :=
  match bs with
  | 0xEF :: 0xBB :: 0xBF :: rest => utf8Decode rest
  | _ => utf8Decode bs

/-- Fuel-driven worker for the lossy decode; fuel is the byte count, which
bounds the number of emitted characters. -/
def utf8ReplaceAux : Nat → List Nat → List Char
  | 0, _ => []
  | _, [] => []
  | fuel + 1, b :: rest =>
    match utf8DecodeOne (b :: rest) with
    | some (cp, rest2) => Char.ofNat cp :: utf8ReplaceAux fuel rest2
    | none => Char.ofNat 0xFFFD :: utf8ReplaceAux fuel rest

/-- `bytes.decode("utf-8", errors="replace")`: never fails, substitutes
`U+FFFD` for invalid sequences. (The source reaches this only in
`_load_binary_fallback`; the granularity of replacement for multi-byte
garbage is approximated as one marker per undecodable byte.) -/
def utf8DecodeReplace (bs : Bytes) : List Char :=
  utf8ReplaceAux bs.length bs

/-- The encodings a processor may try, by their Python codec names. -/
inductive PyEncoding where
  | utf8
  | utf8sig
  | latin1
  | cp1252
  | iso8859_1
deriving DecidableEq, Repr

/-- The codec name string, as it appears in the source's `encodings` lists and
in document metadata. -/
def encName : PyEncoding → String
  | .utf8 => "utf-8"
  | .utf8sig => "utf-8-sig"
  | .latin1 => "latin-1"
  | .cp1252 => "cp1252"
  | .iso8859_1 => "iso-8859-1"

/-- Run one codec on a byte string. -/
def decodeWith : PyEncoding → Bytes → Option (List Char)
  | .utf8, bs => utf8Decode bs
  | .utf8sig, bs => utf8SigDecode bs
  | .latin1, bs => some (latin1Decode bs)
  | .cp1252, bs => cp1252Decode bs
  | .iso8859_1, bs => some (latin1Decode bs)

/-- The one-character lookahead after a carriage return: a directly
following line feed is absorbed into the translated `\n`. -/
def dropLeadingLF : List Char → List Char
  | '\n' :: rest => rest
  | l => l

/-- Worker for universal-newline translation; the fuel is only a
structural-recursion device (each step consumes at least one character), and
any fuel at least the character count gives the full translation. -/
def univNewlinesCore : Nat → List Char → List Char
  | _, [] => []
  | 0, l => l
  | fuel + 1, c :: rest =>
    if c = '\r' then '\n' :: univNewlinesCore fuel (dropLeadingLF rest)
    else c :: univNewlinesCore fuel rest

/-- CPython's universal-newline translation, applied by text-mode reads
(`open(..., newline=None)`, hence `Path.read_text`) after decoding: each
`\r\n` pair and each lone `\r` becomes `\n`. -/
def univNewlines (cs : List Char) : List Char :=
  univNewlinesCore cs.length cs

/-! ## Paths and the filesystem

A resolved absolute path is its list of components. Raw paths arrive as
strings and are parsed the way `pathlib.PurePosixPath` does: split on `/`,
dropping empty components and `.`; `..` is kept by the parser and handled by
`resolve`. -/

/-- A resolved absolute path, as its component list. -/
abbrev AbsPath := List String

/-- Split a character list at every slash (the pieces, in order, including
empty ones — the char-level `str.split("/")`). -/
def splitSlashAux (cur : List Char) : List Char → List String
  | [] => [⟨cur.reverse⟩]
  | c :: cs =>
    if c = '/' then ⟨cur.reverse⟩ :: splitSlashAux [] cs
    else splitSlashAux (c :: cur) cs

/-- `PurePosixPath` parsing: the component list of a raw path string, with
empty components and `.` dropped (and `..` kept). -/
def pathComps (s : String) : List String :=
  (splitSlashAux [] s.data).filter (fun c => !(c == "" || c == "."))

/-- Does the raw path string start with a slash? -/
def isAbsRaw (s : String) : Bool :=
  match s.data with
  | '/' :: _ => true
  | _ => false

/-- Lexical normalization of a component sequence: `..` pops the last
accumulated component (and is a no-op at the root), everything else is
appended. -/
def normComps (acc : List String) : List String → List String
  | [] => acc
  | c :: cs => if c = ".." then normComps acc.dropLast cs else normComps (acc ++ [c]) cs

/-- `Path(s).resolve()` in a symlink-free world: make the path absolute
against the (already resolved) working directory, then normalize `..`
segments lexically. -/
def resolvePath (cwd : AbsPath) (s : String) : AbsPath :=
  normComps [] ((if isAbsRaw s then [] else cwd) ++ pathComps s)

/-- `resolved.relative_to(allowed)` on resolved paths: strip `base`'s
components from the front of `p`, failing when `base` is not an ancestor
(or the same path). -/
def relativeToComps : AbsPath → AbsPath → Option (List String)
  | p, [] => some p
  | [], _ :: _ => none
  | c :: cs, b :: bs => if c = b then relativeToComps cs bs else none

/-- The `name` of a path: its last component (empty for the root). -/
def fileName (p : AbsPath) : String :=
  p.getLast?.getD ""

/-- `str(path)` for a resolved absolute path. -/
def pathToString (p : AbsPath) : String :=
  "/" ++ String.intercalate "/" p

/-- The filesystem: a partial map from resolved absolute paths to the bytes of
the regular file stored there (directories are implicit; a path mapped to
`none` does not exist as a regular file). -/
structure FileSys where
  files : AbsPath → Option Bytes

/-! ## `security_utils.py` -/

/-- `MAX_FILE_SIZE = 10 * 1024 * 1024`. -/
def MAX_FILE_SIZE : Nat := 10 * 1024 * 1024

/-- `validate_path(path, allowed_base)`: resolve both, require
`resolved.relative_to(allowed)` to succeed, and return the resolved path;
on failure raise `PathTraversalError` whose message embeds the original raw
path. The suspicious-pattern scan in the source only logs and is dropped
here. -/
def validate_path (cwd : AbsPath) (path allowedBase : String) : Except PyErr AbsPath :=
  let resolved := resolvePath cwd path
  let allowed := resolvePath cwd allowedBase
  match relativeToComps resolved allowed with
  | some _ => .ok resolved
  | none =>
    .error ⟨.pathTraversal, "Path traversal detected: " ++ path ++ " is outside allowed directory"⟩

/-- `check_file_size(file_path, max_size)`: a nonexistent path passes
silently; an existing file fails with `FileSizeError` iff its byte size
strictly exceeds the limit. -/
def check_file_size (fs : FileSys) (p : AbsPath) (maxSize : Nat) : Except PyErr Unit :=
  match fs.files p with
  | none => .ok ()
  | some bs =>
    if maxSize < bs.length then .error ⟨.fileSize, "File too large: " ++ fileName p⟩
    else .ok ()

/-- `safe_read_file(file_path, encoding)`: require existence, re-check the
size, then read through `file_path.read_text` — which decodes and then
applies universal-newline translation; any failure of the read itself is
re-raised as a plain `SecurityError` mentioning only the file name. -/
def safe_read_file (fs : FileSys) (p : AbsPath) (enc : PyEncoding) : Except PyErr (List Char) :=
  match fs.files p with
  | none => .error ⟨.fileNotFound, "File not found: " ++ pathToString p⟩
  | some bs =>
    match check_file_size fs p MAX_FILE_SIZE with
    | .error e => .error e
    | .ok _ =>
      match decodeWith enc bs with
      | some cs => .ok (univNewlines cs)
      | none => .error ⟨.securityOther, "Failed to read file: " ++ fileName p⟩

/-- The `safe_messages` table of `sanitize_error_message`, in the source's
insertion order. None of the listed exception classes is a subclass of
another listed one, so the `isinstance` scan is an exact-class lookup. -/
def safe_messages : List (ErrKind × String) :=
  [(.fileNotFound, "File not found"),
   (.permissionDenied, "Permission denied"),
   (.isADirectory, "Invalid file type"),
   (.pathTraversal, "Invalid path"),
   (.fileSize, "File size limit exceeded"),
   (.unicodeDecode, "File encoding error"),
   (.memoryExhausted, "Insufficient memory"),
   (.timedOut, "Operation timed out")]

/-- The `for error_type, message in safe_messages.items()` scan. -/
def sanitize_scan (k : ErrKind) : List (ErrKind × String) → Option String
  | [] => none
  | (t, m) :: rest => if k = t then some m else sanitize_scan k rest

/-- `sanitize_error_message(error, context)`: look the exception class up in
the table (the message payload is never consulted) and append the optional
context; unknown classes get the generic phrase. -/
def sanitize_error_message (e : PyErr) (context : String) : String :=
  match sanitize_scan e.kind safe_messages with
  | some m => if context = "" then m else m ++ ": " ++ context
  | none => if context = "" then "Operation failed" else "Operation failed: " ++ context

/-- The characters `get_safe_filename` keeps. -/
def safeChars : List Char :=
  "abcdefghijklmnopqrstuvwxyzABCDEFGHIJKLMNOPQRSTUVWXYZ0123456789.-_".data

/-- `Path(filename).name` on a raw string (last parsed component, empty when
there is none). -/
def rawName (filename : String) : String :=
  (pathComps filename).getLast?.getD ""

/-- `get_safe_filename(filename)`: keep only the last path component,
truncate over-long names to 97 characters plus an ellipsis, replace every
character outside the safe set by an underscore, and fall back to
a fixed placeholder when nothing remains. -/
def get_safe_filename (filename : String) : String :=
  let name := (rawName filename).data
  let name := if 100 < name.length then name.take 97 ++ "...".data else name
  let sanitized := name.map (fun c => if c ∈ safeChars then c else '_')
  if sanitized = [] then "unnamed" else ⟨sanitized⟩

/-! ## `document_loader_components.py`: the format registry -/

/-- `FileCategory` from the source. -/
inductive FileCategory where
  | academic
  | programming
  | configuration
  | documentation
  | data
  | standard
  | unknown
deriving DecidableEq, Repr

/-- `FileFormat` (the `mime_type` field is always `None` in the source and is
dropped). -/
structure FileFormat where
  extension : String
  category : FileCategory
  description : String
deriving DecidableEq, Repr

/-- ASCII lowercasing, matching `str.lower()` on the ASCII extension keys the
registry uses. -/
def strLower (s : String) : String :=
  ⟨s.data.map Char.toLower⟩

/-- ASCII uppercasing (`str.upper()`), used by the placeholder text of the
standard-format processor. -/
def strUpper (s : String) : String :=
  ⟨s.data.map Char.toUpper⟩

/-- `str.strip(".")`: remove leading and trailing dots. -/
def stripDots (s : String) : String :=
  ⟨((s.data.dropWhile (fun c => c == '.')).reverse.dropWhile (fun c => c == '.')).reverse⟩

/-- One registration block: `register` lowercases the key at insertion. -/
def mkBlock (cat : FileCategory) (entries : List (String × String)) : List FileFormat :=
  entries.map (fun e => ⟨strLower e.1, cat, e.2⟩)

/-- The academic formats block. -/
def academicFormats : List (String × String) :=
  [("tex", "LaTeX document"), ("bib", "BibTeX bibliography"),
   ("cls", "LaTeX class"), ("sty", "LaTeX style"),
   ("bst", "BibTeX style"), ("dtx", "LaTeX documented source"),
   ("ins", "LaTeX installer"), ("org", "Org-mode document"),
   ("rst", "reStructuredText"), ("adoc", "AsciiDoc"),
   ("asciidoc", "AsciiDoc"), ("textile", "Textile markup"),
   ("mediawiki", "MediaWiki markup")]

/-- The programming-language formats block. -/
def programmingFormats : List (String × String) :=
  [("hs", "Haskell"), ("lhs", "Literate Haskell"),
   ("ml", "OCaml"), ("mli", "OCaml interface"),
   ("sml", "Standard ML"), ("sig", "SML signature"),
   ("agda", "Agda"), ("lean", "Lean"), ("v", "Coq"),
   ("idr", "Idris"), ("elm", "Elm"), ("purs", "PureScript"),
   ("c", "C"), ("h", "C header"),
   ("cpp", "C++"), ("cc", "C++"), ("cxx", "C++"),
   ("hpp", "C++ header"), ("hxx", "C++ header"), ("hh", "C++ header"),
   ("rs", "Rust"), ("go", "Go"), ("zig", "Zig"),
   ("nim", "Nim"), ("d", "D"), ("ada", "Ada"),
   ("adb", "Ada body"), ("ads", "Ada spec"),
   ("java", "Java"), ("scala", "Scala"), ("sc", "Scala script"),
   ("kt", "Kotlin"), ("kts", "Kotlin script"),
   ("groovy", "Groovy"), ("clj", "Clojure"),
   ("cljs", "ClojureScript"), ("cljc", "Clojure common"),
   ("cs", "C#"), ("fs", "F#"), ("fsx", "F# script"),
   ("fsi", "F# signature"), ("vb", "Visual Basic"),
   ("py", "Python"), ("pyx", "Cython"), ("pyi", "Python interface"),
   ("pyw", "Python Windows"),
   ("rb", "Ruby"), ("rake", "Rakefile"), ("gemspec", "Gem specification"),
   ("pl", "Perl"), ("pm", "Perl module"), ("pod", "Perl documentation"),
   ("t", "Perl test"), ("php", "PHP"), ("php3", "PHP3"),
   ("php4", "PHP4"), ("php5", "PHP5"), ("phtml", "PHP HTML"),
   ("lua", "Lua"),
   ("js", "JavaScript"), ("jsx", "JSX"), ("ts", "TypeScript"),
   ("tsx", "TSX"), ("mjs", "ES module"), ("cjs", "CommonJS"),
   ("coffee", "CoffeeScript"), ("dart", "Dart"),
   ("vue", "Vue"), ("svelte", "Svelte"),
   ("swift", "Swift"), ("m", "Objective-C"), ("mm", "Objective-C++"),
   ("objc", "Objective-C"),
   ("r", "R"), ("R", "R"), ("Rmd", "R Markdown"),
   ("jl", "Julia"), ("f90", "Fortran 90"), ("f95", "Fortran 95"),
   ("f03", "Fortran 2003"), ("for", "Fortran"),
   ("matlab", "MATLAB"), ("octave", "Octave"),
   ("sci", "Scilab"), ("sce", "Scilab script"),
   ("ex", "Elixir"), ("exs", "Elixir script"),
   ("erl", "Erlang"), ("hrl", "Erlang header"),
   ("rkt", "Racket"), ("scm", "Scheme"),
   ("lisp", "Lisp"), ("lsp", "Lisp"), ("l", "Lisp"),
   ("cl", "Common Lisp")]

/-- The configuration and data formats block. -/
def configFormats : List (String × String) :=
  [("json", "JSON"), ("jsonl", "JSON Lines"), ("geojson", "GeoJSON"),
   ("yaml", "YAML"), ("yml", "YAML"),
   ("toml", "TOML"), ("ini", "INI"), ("cfg", "Configuration"),
   ("conf", "Configuration"), ("config", "Configuration"),
   ("xml", "XML"), ("xsd", "XML Schema"), ("xsl", "XSL"),
   ("xslt", "XSLT"), ("properties", "Properties"),
   ("props", "Properties")]

/-- The database and query languages block. -/
def dataFormats : List (String × String) :=
  [("sql", "SQL"), ("psql", "PostgreSQL"), ("mysql", "MySQL"),
   ("sqlite", "SQLite"), ("graphql", "GraphQL"), ("gql", "GraphQL")]

/-- The shell and scripting block (registered as programming). -/
def shellFormats : List (String × String) :=
  [("sh", "Shell"), ("bash", "Bash"), ("zsh", "Zsh"),
   ("fish", "Fish"), ("ksh", "Korn shell"), ("csh", "C shell"),
   ("tcsh", "TC shell"), ("ps1", "PowerShell"),
   ("psm1", "PowerShell module"), ("psd1", "PowerShell data"),
   ("bat", "Batch"), ("cmd", "Command")]

/-- The styling languages block (registered as programming). -/
def styleFormats : List (String × String) :=
  [("css", "CSS"), ("scss", "SCSS"), ("sass", "Sass"),
   ("less", "Less"), ("styl", "Stylus")]

/-- The build and project files block (registered as configuration). -/
def buildFormats : List (String × String) :=
  [("makefile", "Makefile"), ("mk", "Make"), ("mak", "Make"),
   ("make", "Make"), ("cmake", "CMake"),
   ("dockerfile", "Dockerfile"), ("containerfile", "Containerfile"),
   ("vagrantfile", "Vagrantfile"), ("jenkinsfile", "Jenkinsfile"),
   ("rakefile", "Rakefile"), ("gemfile", "Gemfile"),
   ("brewfile", "Brewfile"), ("podfile", "Podfile"),
   ("cartfile", "Cartfile"), ("gradle", "Gradle"),
   ("maven", "Maven"), ("ant", "Ant"), ("bazel", "Bazel"),
   ("buck", "Buck")]

/-- The documentation files block. -/
def docFormats : List (String × String) :=
  [("readme", "README"), ("license", "License"),
   ("changelog", "Changelog"), ("authors", "Authors"),
   ("contributors", "Contributors"), ("todo", "TODO"),
   ("fixme", "FIXME"), ("hack", "HACK"),
   ("log", "Log"), ("diff", "Diff"), ("patch", "Patch")]

/-- The editor configs block (registered as configuration). -/
def editorFormats : List (String × String) :=
  [("vim", "Vim config"), ("el", "Emacs Lisp"), ("emacs", "Emacs")]

/-- The standard document formats block: the rich-document set. -/
def standardFormats : List (String × String) :=
  [("pdf", "PDF"), ("doc", "Word"), ("docx", "Word"),
   ("pptx", "PowerPoint"), ("xls", "Excel"), ("xlsx", "Excel"),
   ("csv", "CSV"), ("md", "Markdown"), ("html", "HTML"),
   ("htm", "HTML")]

/-- The fully initialized registry, blocks in the source's registration
order. The source stores a dict; the only duplicate keys (`r` registered
twice via `r` and `R`) carry identical entries, so first-match lookup on
this list agrees with the dict's last-write-wins contents. -/
def registry : List FileFormat :=
  mkBlock .academic academicFormats ++
  mkBlock .programming programmingFormats ++
  mkBlock .configuration configFormats ++
  mkBlock .data dataFormats ++
  mkBlock .programming shellFormats ++
  mkBlock .programming styleFormats ++
  mkBlock .configuration buildFormats ++
  mkBlock .documentation docFormats ++
  mkBlock .configuration editorFormats ++
  mkBlock .standard standardFormats

/-- First-match lookup by (already normalized) extension key. -/
def findFormat : List FileFormat → String → Option FileFormat
  | [], _ => none
  | f :: rest, k => if f.extension = k then some f else findFormat rest k

/-- `get_format(extension)`: normalize the query the way the source does
(`extension.lower().strip(".")`) and look it up. -/
def get_format (ext : String) : Option FileFormat :=
  findFormat registry (stripDots (strLower ext))

/-- `get_category(extension)`: the format's category, `Unknown` when the
extension is not registered. -/
def get_category (ext : String) : FileCategory :=
  match get_format ext with
  | some f => f.category
  | none => .unknown

/-- `is_supported(extension)`. -/
def is_supported (ext : String) : Bool :=
  (get_format ext).isSome

/-! ## Loader strategies -/

/-- The two loader strategies `LoaderFactory.create_loader` can return. -/
inductive Strategy where
  | text
  | standardRich
deriving DecidableEq, Repr

/-- `LoaderFactory.create_loader`, given the file's extension (the path's
suffix): the standard category selects the rich-document strategy, every
other registration state — supported or unknown — selects the text
strategy. -/
def create_loader_ext (ext : String) : Strategy :=
  if get_category ext = .standard then .standardRich
  else if is_supported ext then .text
  else .text

/-! ## `DirectoryTraverser` -/

/-- The traversal policy: the directory-name skip set and the hidden-entry
rule (`DirectoryTraverser.__init__`). -/
structure TraversePolicy where
  skipDirs : List String
  skipHidden : Bool

/-- `DirectoryTraverser.DEFAULT_SKIP_DIRS`. -/
def DEFAULT_SKIP_DIRS : List String :=
  [".git", ".svn", ".hg",
   "__pycache__", ".venv", "venv", "env", ".tox", ".pytest_cache",
   "node_modules", "bower_components",
   "dist", "build", "target", "out", "bin", "obj",
   ".idea", ".vscode", ".vs",
   "vendor", "deps",
   ".terraform", ".serverless"]

/-- Does the string start with a dot (`startswith(".")`)? -/
def strHeadDot (s : String) : Bool :=
  match s.data with
  | '.' :: _ => true
  | _ => false

/-- Does the string end with a tilde (`endswith("~")`)? -/
def strLastTilde (s : String) : Bool :=
  match s.data.getLast? with
  | some '~' => true
  | _ => false

/-- `should_skip_directory(dirname)`. -/
def should_skip_directory (pol : TraversePolicy) (dirname : String) : Bool :=
  if pol.skipHidden && strHeadDot dirname then true
  else pol.skipDirs.contains dirname

/-- `should_skip_file(filename)`. -/
def should_skip_file (pol : TraversePolicy) (filename : String) : Bool :=
  if pol.skipHidden && strHeadDot filename then true
  else if strLastTilde filename then true
  else false

/-- A directory tree: named subdirectories and the file names present
directly in the directory. The traversal root is the top node; its own name
is outside the tree (`os.walk` never filters the root itself). -/
inductive FSTree where
  | node : List (String × FSTree) → List String → FSTree
deriving Repr

/-- `DirectoryTraverser.traverse` over a tree: at each directory the
subdirectory list is filtered by the skip rules before descending (so a
skipped subtree is never entered), and surviving files are collected. Paths
are returned as component lists relative to the root. -/
def traverse (pol : TraversePolicy) : FSTree → List (List String)
  | .node dirs files =>
    (files.filter (fun f => !(should_skip_file pol f))).map (fun f => [f]) ++
    (dirs.attach.map (fun d =>
      if should_skip_directory pol d.1.1 then []
      else (traverse pol d.1.2).map (fun p => d.1.1 :: p))).flatten
decreasing_by
  obtain ⟨⟨n, t⟩, hmem⟩ := d
  have h1 := List.sizeOf_lt_of_mem hmem
  simp [Prod.mk.sizeOf_spec] at h1 ⊢
  omega

/-- The directories `os.walk` opens during `traverse`, as component lists
relative to the root (the root itself is `[]`). A subdirectory appears here
exactly when it survives the in-place filtering of its parent's `dirs`
list. -/
def openedDirs (pol : TraversePolicy) : FSTree → List (List String)
  | .node dirs _ =>
    [] :: (dirs.attach.map (fun d =>
      if should_skip_directory pol d.1.1 then []
      else (openedDirs pol d.1.2).map (fun p => d.1.1 :: p))).flatten
decreasing_by
  obtain ⟨⟨n, t⟩, hmem⟩ := d
  have h1 := List.sizeOf_lt_of_mem hmem
  simp [Prod.mk.sizeOf_spec] at h1 ⊢
  omega

/-! ## Documents and processors -/

/-- The document dictionaries the loaders produce; metadata is a key-value
list (the source's booleans appear as their `str()` image). -/
structure Document where
  raw_content : String
  url : String
  metadata : List (String × String)
deriving DecidableEq, Repr

/-- `pathlib`'s `suffix` of a file name: from the last dot, provided it is
neither the leading character nor the last one. -/
def suffixOfName (name : String) : String :=
  match (name.data.reverse.findIdx? (fun c => c == '.')).map
      (fun j => name.data.length - 1 - j) with
  | some i => if 0 < i ∧ i < name.data.length - 1 then ⟨name.data.drop i⟩ else ""
  | none => ""

/-- `file_path.suffix` for a resolved path. -/
def pathSuffix (p : AbsPath) : String :=
  suffixOfName (fileName p)

/-- `Path.read_text(encoding=...)`: fails when the file does not exist or
the codec rejects the bytes; a successful read decodes the bytes and then
applies universal-newline translation (text mode, `newline=None`). -/
def read_text (fs : FileSys) (p : AbsPath) (enc : PyEncoding) : Except PyErr (List Char) :=
  match fs.files p with
  | none => .error ⟨.fileNotFound, pathToString p⟩
  | some bs =>
    match decodeWith enc bs with
    | some cs => .ok (univNewlines cs)
    | none => .error ⟨.unicodeDecode, encName enc⟩

/-- The encoding list of `TextDocumentProcessor.process`. -/
def componentEncodings : List PyEncoding :=
  [.utf8, .utf8sig, .latin1, .cp1252, .iso8859_1]

/-- The encoding list of `SecureTextDocumentProcessor.process`. -/
def secureEncodings : List PyEncoding :=
  [.utf8, .utf8sig, .latin1]

/-- The `for encoding in encodings` loop of `TextDocumentProcessor.process`:
first successful read wins; every failure (decode or otherwise) continues
with the next encoding. -/
def text_process_loop (fs : FileSys) (p : AbsPath) : List PyEncoding → Option Document
  | [] => none
  | enc :: rest =>
    match read_text fs p enc with
    | .ok cs =>
      some ⟨⟨cs⟩, fileName p, [("encoding", encName enc), ("source", pathToString p)]⟩
    | .error _ => text_process_loop fs p rest

/-- `TextDocumentProcessor._load_binary_fallback`: lossy decode of the raw
bytes; if even reading the bytes fails the handler returns the empty list. -/
def load_binary_fallback (fs : FileSys) (p : AbsPath) : List Document :=
  match fs.files p with
  | none => []
  | some bs =>
    [⟨⟨utf8DecodeReplace bs⟩, fileName p,
      [("encoding", "binary_fallback"), ("source", pathToString p)]⟩]

/-- `TextDocumentProcessor.process`. -/
def text_process (fs : FileSys) (p : AbsPath) : List Document :=
  match text_process_loop fs p componentEncodings with
  | some d => [d]
  | none => load_binary_fallback fs p

/-- The encoding loop of `SecureTextDocumentProcessor.process`: like the
plain loop but through `safe_read_file`, and with display-safe names in the
document. -/
def secure_text_loop (fs : FileSys) (p : AbsPath) : List PyEncoding → Option Document
  | [] => none
  | enc :: rest =>
    match safe_read_file fs p enc with
    | .ok cs =>
      some ⟨⟨cs⟩, get_safe_filename (pathToString p),
        [("encoding", encName enc), ("source", get_safe_filename (pathToString p))]⟩
    | .error _ => secure_text_loop fs p rest

/-- `SecureTextDocumentProcessor.process`: size check first (a
`SecurityError` there is caught by the outer handler, yielding no
documents), then the encoding loop, then the decode-failure placeholder
document. -/
def secure_text_process (fs : FileSys) (p : AbsPath) : List Document :=
  match check_file_size fs p MAX_FILE_SIZE with
  | .error _ => []
  | .ok _ =>
    match secure_text_loop fs p secureEncodings with
    | some d => [d]
    | none =>
      [⟨"[File could not be decoded]", get_safe_filename (pathToString p),
        [("error", "encoding_failure")]⟩]

/-- The extension set hardcoded in `StandardDocumentProcessor`. -/
def standardProcFormats : List String :=
  ["pdf", "doc", "docx", "pptx", "xls", "xlsx", "csv", "md", "html", "htm"]

/-- `StandardDocumentProcessor.process`: text-based rich formats are read as
UTF-8 through `read_text` (failures yield no documents); binary rich
formats yield a tagged placeholder document. -/
def standard_process (fs : FileSys) (p : AbsPath) : List Document :=
  let ext := stripDots (strLower (pathSuffix p))
  if !(standardProcFormats.contains ext) then []
  else if ["md", "csv", "html", "htm"].contains ext then
    match read_text fs p .utf8 with
    | .error _ => []
    | .ok cs => [⟨⟨cs⟩, fileName p, [("format", ext), ("source", pathToString p)]⟩]
  else
    [⟨"[" ++ strUpper ext ++ " content would be extracted here]", fileName p,
      [("format", ext), ("source", pathToString p), ("placeholder", "True")]⟩]

/-! ## Orchestrators -/

/-- `LoaderFactory.create_loader` on a path: extract the suffix, normalize
it, and select the strategy. -/
def create_loader (p : AbsPath) : Strategy :=
  create_loader_ext (stripDots (strLower (pathSuffix p)))

/-- `DocumentLoaderOrchestrator.load_file` (the components orchestrator):
dispatch to the selected processor. -/
def load_file (fs : FileSys) (p : AbsPath) : List Document :=
  match create_loader p with
  | .standardRich => standard_process fs p
  | .text => text_process fs p

/-- `DocumentLoaderOrchestrator.load_files` discipline, abstracted over the
per-file loader the way `asyncio.gather(..., return_exceptions=True)`
treats it: a per-file exception becomes a non-list result that contributes
nothing; successes are concatenated. -/
def gather_load_files (loadOne : String → Except PyErr (List Document))
    (paths : List String) : List Document :=
  (paths.map (fun p =>
    match loadOne p with
    | .ok ds => ds
    | .error _ => [])).flatten

/-- `SecureDocumentLoaderOrchestrator.load_file`: validate the path against
the allowed base (a `SecurityError` or any other exception is caught and
yields no documents), then dispatch; the secure factory keeps the standard
processor and swaps in the secure text processor. -/
def secure_load_file (fs : FileSys) (cwd : AbsPath) (allowedBase : String)
    (pathStr : String) : Except PyErr (List Document) :=
  match validate_path cwd pathStr allowedBase with
  | .error _ => .ok []
  | .ok vpath =>
    .ok (match create_loader vpath with
      | .standardRich => standard_process fs vpath
      | .text => secure_text_process fs vpath)

/-- The `for file_path in files` loop of
`SecureDocumentLoaderOrchestrator.load_directory`: extend the accumulator
with each file's documents; an exception escaping `load_file` would abort
the loop (and be caught by the method's handler). -/
def secure_collect (fs : FileSys) (cwd : AbsPath) (allowedBase : String) :
    List AbsPath → Except PyErr (List Document)
  | [] => .ok []
  | f :: rest =>
    match secure_load_file fs cwd allowedBase (pathToString f) with
    | .error e => .error e
    | .ok ds =>
      match secure_collect fs cwd allowedBase rest with
      | .error e => .error e
      | .ok more => .ok (ds ++ more)

/-- `SecureDocumentLoaderOrchestrator.load_directory`, over the injected
traverser (the class receives its traverser by dependency injection):
validate the root, traverse, load each discovered file; `except
SecurityError` and `except Exception` both convert any escaping error into
an empty result. -/
def secure_load_directory_body (fs : FileSys) (cwd : AbsPath) (allowedBase : String)
    (traverseFn : AbsPath → Except PyErr (List AbsPath)) (dir : String) :
    Except PyErr (List Document) :=
  match validate_path cwd dir allowedBase with
  | .error e => .error e
  | .ok vdir =>
    match traverseFn vdir with
    | .error e => .error e
    | .ok files =>
      if files = [] then .ok []
      else secure_collect fs cwd allowedBase files

/-- The method itself: run the body under `try`; `except SecurityError` and
`except Exception` both convert any escaping error into an empty result. -/
def secure_load_directory (fs : FileSys) (cwd : AbsPath) (allowedBase : String)
    (traverseFn : AbsPath → Except PyErr (List AbsPath)) (dir : String) :
    Except PyErr (List Document) :=
  match secure_load_directory_body fs cwd allowedBase traverseFn dir with
  | .ok docs => .ok docs
  | .error _ => .ok []

/-! ## Spec-side definitions

These follow the specification's words rather than the source, and exist to
be compared with the source-side definitions above. -/

/-- Spec-side containment of resolved paths: `base` is an ancestor of (or
equal to) `p`, component-wise — "the canonicalized absolute path lies within
the allowed base's canonicalized absolute path". -/
def isAncestorOf (base p : AbsPath) : Bool :=
  match base, p with
  | [], _ => true
  | _ :: _, [] => false
  | b :: bs, c :: cs => b == c && isAncestorOf bs cs

/-- Spec-side: the rich/standard document extension set named by the
specification. -/
def richExtSet : List String :=
  ["pdf", "doc", "docx", "pptx", "xls", "xlsx", "csv", "md", "html", "htm"]

/-- Spec-side: the fixed safe phrase the specification promises for each
error class ("error text is a fixed safe phrase plus a sanitized filename
only"). -/
def safePhrase (k : ErrKind) : String :=
  match k with
  | .fileNotFound => "File not found"
  | .permissionDenied => "Permission denied"
  | .isADirectory => "Invalid file type"
  | .pathTraversal => "Invalid path"
  | .fileSize => "File size limit exceeded"
  | .unicodeDecode => "File encoding error"
  | .memoryExhausted => "Insufficient memory"
  | .timedOut => "Operation timed out"
  | .securityOther => "Operation failed"
  | .otherErr => "Operation failed"

/-! ## Concrete fixtures for witnesses and counterexamples -/

/-- An empty filesystem. -/
def fsNone : FileSys :=
  ⟨fun _ => none⟩

/-- A traverser stub returning no files. -/
def trvNone : AbsPath → Except PyErr (List AbsPath) :=
  fun _ => .ok []

/-- A per-file loader that fails on one specific path. -/
def loadOneW : String → Except PyErr (List Document) :=
  fun p => if p = "bad" then .error ⟨.otherErr, "boom"⟩ else .ok []

/-- A filesystem holding one file that is one byte over the size limit. -/
def fsBig : FileSys :=
  ⟨fun q => if q = ["big.txt"] then some (List.replicate (MAX_FILE_SIZE + 1) 0) else none⟩

/-- A filesystem holding one file exactly at the size limit. -/
def fsAtLimit : FileSys :=
  ⟨fun q => if q = ["ok.txt"] then some (List.replicate MAX_FILE_SIZE 0) else none⟩

/-- A filesystem holding one file whose single byte is not valid UTF-8. -/
def fsFF : FileSys :=
  ⟨fun q => if q = ["data.bin"] then some [0xFF] else none⟩

/-- Another invalid-UTF-8 one-byte file. -/
def fsFE : FileSys :=
  ⟨fun q => if q = ["x.bin"] then some [0xFE] else none⟩

/-- A filesystem holding one UTF-8 text file. -/
def fsHello : FileSys :=
  ⟨fun q => if q = ["notes.txt"] then some (utf8Encode "hello".data) else none⟩

/-- A filesystem holding one UTF-8 text file whose content contains a
carriage-return/line-feed pair. -/
def fsCRLF : FileSys :=
  ⟨fun q => if q = ["crlf.txt"] then some (utf8Encode "a\r\nb".data) else none⟩

/-- The default traversal policy (`DirectoryTraverser()`). -/
def polW : TraversePolicy :=
  ⟨DEFAULT_SKIP_DIRS, true⟩

/-- A small directory tree with a skipped subdirectory and a backup file. -/
def treeW : FSTree :=
  .node [("src", .node [] ["util.py"]), (".git", .node [] ["config"])]
    ["main.py", "backup~"]

/-! # Theorems -/

/-- `relative_to` on resolved paths succeeds exactly on ancestor-contained
paths. -/
theorem relativeToComps_isSome (base : AbsPath) :
    ∀ p : AbsPath, (relativeToComps p base).isSome = isAncestorOf base p := by
  induction base with
  | nil => intro p; simp [relativeToComps, isAncestorOf]
  | cons b bs ih =>
    intro p
    cases p with
    | nil => simp [relativeToComps, isAncestorOf]
    | cons c cs =>
      by_cases hc : c = b
      · subst hc
        simp [relativeToComps, isAncestorOf, ih]
      · have hbc : (b == c) = false := beq_eq_false_iff_ne.mpr (fun h => hc h.symm)
        simp [relativeToComps, isAncestorOf, hc, hbc]

/-- C1. `validate_path(p, b)` raises `PathTraversalError` exactly when the
resolved absolute form of `p` does not lie inside the resolved absolute form
of `b`, and otherwise returns the canonical resolved path; the containment
decision is component-wise on the resolved paths (never a string comparison
on the raw input, which only appears in the error message). -/
theorem validate_path_resolved_containment (cwd : AbsPath) (p b : String) :
    validate_path cwd p b =
      if isAncestorOf (resolvePath cwd b) (resolvePath cwd p) then
        Except.ok (resolvePath cwd p)
      else
        Except.error ⟨.pathTraversal,
          "Path traversal detected: " ++ p ++ " is outside allowed directory"⟩ := by
  have h := relativeToComps_isSome (resolvePath cwd b) (resolvePath cwd p)
  simp only [validate_path]
  cases hr : relativeToComps (resolvePath cwd p) (resolvePath cwd b) with
  | none =>
    rw [hr] at h
    simp only [Option.isSome_none] at h
    rw [if_neg (by simp [← h])]
  | some r =>
    rw [hr] at h
    simp only [Option.isSome_some] at h
    rw [if_pos (by simp [← h])]

/-- C4. Every sanitized error message is the fixed safe phrase determined by
the exception's class alone, plus the optional context; the exception's own
message payload (which may embed paths) never reaches the output, and no
safe phrase contains a path separator. Two failures of the same class with
the same context therefore produce identical messages. -/
theorem sanitize_error_message_fixed_phrase (e : PyErr) (context : String) :
    sanitize_error_message e context =
      (if context = "" then safePhrase e.kind else safePhrase e.kind ++ ": " ++ context) ∧
    ∀ k, (safePhrase k).data.contains '/' = false := by
  refine ⟨?_, ?_⟩
  · obtain ⟨k, payload⟩ := e
    cases k <;> rfl
  · intro k
    cases k <;> decide

/-- C10. `check_file_size` on a path that does not exist returns normally
for every size limit; the file's absence surfaces only in the subsequent
read, where `safe_read_file` fails with a `FileNotFoundError`-class access
error. -/
theorem check_file_size_missing_file (fs : FileSys) (p : AbsPath) (m : Nat)
    (h : fs.files p = none) :
    check_file_size fs p m = .ok () ∧
    ∀ enc, ∃ e, safe_read_file fs p enc = .error e ∧ e.kind = .fileNotFound := by
  constructor
  · unfold check_file_size
    rw [h]
  · intro enc
    unfold safe_read_file
    rw [h]
    exact ⟨_, rfl, rfl⟩

/-- Witness for C10 at a concrete empty filesystem. -/
theorem check_file_size_missing_file_witness :
    check_file_size fsNone ["gone.txt"] 5 = .ok () ∧
    ∀ enc, ∃ e, safe_read_file fsNone ["gone.txt"] enc = .error e ∧ e.kind = .fileNotFound :=
  check_file_size_missing_file fsNone ["gone.txt"] 5 rfl

/-- The replacement step of `get_safe_filename` only emits safe characters. -/
theorem replaced_char_safe (c : Char) :
    safeChars.contains (if c ∈ safeChars then c else '_') = true := by
  by_cases h : c ∈ safeChars
  · rw [if_pos h]
    simp [List.contains, List.elem_iff, h]
  · rw [if_neg h]
    decide

/-- C9. `get_safe_filename` always returns a non-empty string of at most 100
characters drawn from the safe set (ASCII letters, digits, dot, dash,
underscore); in particular no path separator and hence no directory
component of the input survives — only the input's last path component is
consulted, every unsafe character in it is replaced by an underscore. -/
theorem get_safe_filename_safe (s : String) :
    get_safe_filename s ≠ "" ∧
    (get_safe_filename s).data.length ≤ 100 ∧
    (get_safe_filename s).data.all (fun c => safeChars.contains c) = true := by
  simp only [get_safe_filename]
  by_cases hempty :
      ((if 100 < (rawName s).data.length then
          (rawName s).data.take 97 ++ "...".data
        else (rawName s).data).map (fun c => if c ∈ safeChars then c else '_')) = []
  · rw [if_pos hempty]
    refine ⟨by decide, by decide, by decide⟩
  · rw [if_neg hempty]
    refine ⟨?_, ?_, ?_⟩
    · intro heq
      exact hempty (congrArg String.data heq)
    · show (List.map _ _).length ≤ 100
      rw [List.length_map]
      by_cases h100 : 100 < (rawName s).data.length
      · rw [if_pos h100]
        simp only [List.length_append, List.length_take, List.length_cons, List.length_nil]
        omega
      · rw [if_neg h100]
        omega
    · show (List.map _ _).all _ = true
      rw [List.all_eq_true]
      intro c hc
      obtain ⟨c0, _, hc0⟩ := List.mem_map.mp hc
      rw [← hc0]
      exact replaced_char_safe c0

/-- Successful registry lookup returns an entry of the registry whose key is
the queried extension. -/
theorem findFormat_mem (l : List FileFormat) (k : String) (f : FileFormat)
    (h : findFormat l k = some f) : f ∈ l ∧ f.extension = k := by
  induction l with
  | nil => simp [findFormat] at h
  | cons g rest ih =>
    rw [findFormat] at h
    by_cases hg : g.extension = k
    · rw [if_pos hg] at h
      obtain rfl : g = f := by injection h
      exact ⟨List.mem_cons_self g rest, hg⟩
    · rw [if_neg hg] at h
      obtain ⟨h1, h2⟩ := ih h
      exact ⟨List.mem_cons_of_mem g h1, h2⟩

set_option maxRecDepth 40000 in
/-- A normalized key classifies as `standard` exactly when it is one of the
ten rich-document extensions. -/
theorem registry_standard_iff (k : String) :
    (match findFormat registry k with
     | some f => f.category
     | none => FileCategory.unknown) = .standard ↔ k ∈ richExtSet := by
  constructor
  · intro h
    cases hf : findFormat registry k with
    | none =>
      rw [hf] at h
      exact absurd h (by decide)
    | some f =>
      rw [hf] at h
      obtain ⟨hmem, hext⟩ := findFormat_mem registry k f hf
      have hall : ∀ g ∈ registry, g.category = .standard → g.extension ∈ richExtSet := by decide
      rw [← hext]
      exact hall f hmem h
  · intro h
    simp only [richExtSet, List.mem_cons, List.not_mem_nil, or_false] at h
    rcases h with rfl | rfl | rfl | rfl | rfl | rfl | rfl | rfl | rfl | rfl <;> decide

/-- C7. Classifying an extension and selecting a loader strategy yields the
rich-document strategy exactly when the extension's category is `standard`,
which holds exactly for the ten rich extensions (pdf, doc, docx, pptx, xls,
xlsx, csv, md, html, htm); every other extension — registered or unknown —
selects the text strategy. -/
theorem classify_select_rich_iff (ext : String) :
    (create_loader_ext ext = .standardRich ↔ get_category ext = .standard) ∧
    (get_category ext = .standard ↔ stripDots (strLower ext) ∈ richExtSet) := by
  constructor
  · unfold create_loader_ext
    by_cases h : get_category ext = .standard
    · rw [if_pos h]
      simp [h]
    · rw [if_neg h, ite_self]
      simp [h]
  · exact registry_standard_iff (stripDots (strLower ext))

/-- C5 (amended). A file whose size is exactly the configured limit passes
the size check; a file over the limit fails the check with `FileSizeError`
before any read happens, and the secure text processor then catches that
error and yields no documents — both inside a batch and when the file is the
sole requested root (the error is logged, never propagated). -/
theorem file_size_boundary (fs : FileSys) (p : AbsPath) (bs : Bytes)
    (h : fs.files p = some bs) :
    (bs.length = MAX_FILE_SIZE → check_file_size fs p MAX_FILE_SIZE = .ok ()) ∧
    (MAX_FILE_SIZE < bs.length →
      (∃ e, check_file_size fs p MAX_FILE_SIZE = .error e ∧ e.kind = .fileSize) ∧
      secure_text_process fs p = []) := by
  constructor
  · intro hl
    simp only [check_file_size, h]
    rw [if_neg (by omega)]
  · intro hl
    have hcfs : check_file_size fs p MAX_FILE_SIZE =
        .error ⟨.fileSize, "File too large: " ++ fileName p⟩ := by
      simp only [check_file_size, h]
      rw [if_pos hl]
    refine ⟨⟨_, hcfs, rfl⟩, ?_⟩
    simp only [secure_text_process, hcfs]

/-- Abstract step: a size-check failure makes the secure text processor
yield no documents. -/
theorem secure_text_process_of_size_error (fs : FileSys) (p : AbsPath) (e : PyErr)
    (h : check_file_size fs p MAX_FILE_SIZE = .error e) :
    secure_text_process fs p = [] := by
  unfold secure_text_process
  rw [h]

/-- Abstract step: on a validated path with the text strategy, the secure
orchestrator's `load_file` returns whatever the secure text processor
produces, as a normal result. -/
theorem secure_load_file_text (fs : FileSys) (cwd : AbsPath) (base pth : String)
    (vp : AbsPath) (h1 : validate_path cwd pth base = .ok vp)
    (h2 : create_loader vp = .text) :
    secure_load_file fs cwd base pth = .ok (secure_text_process fs vp) := by
  unfold secure_load_file
  simp only [h1, h2]

/-- Abstract step: an existing file strictly over the limit fails the size
check with `FileSizeError`. -/
theorem check_file_size_over (fs : FileSys) (p : AbsPath) (bs : Bytes)
    (h : fs.files p = some bs) (hl : MAX_FILE_SIZE < bs.length) :
    check_file_size fs p MAX_FILE_SIZE =
      .error ⟨.fileSize, "File too large: " ++ fileName p⟩ := by
  simp only [check_file_size, h]
  rw [if_pos hl]

/-- Counterexample to C5 as stated: an oversized file that is the sole
requested root does not propagate a failure to the caller —
`SecureDocumentLoaderOrchestrator.load_file` returns a normal, empty
result. -/
theorem file_size_sole_root_no_propagation :
    (∃ e, check_file_size fsBig ["big.txt"] MAX_FILE_SIZE = .error e ∧ e.kind = .fileSize) ∧
    secure_load_file fsBig [] "/" "/big.txt" = .ok [] := by
  have hcfs := check_file_size_over fsBig ["big.txt"] (List.replicate (MAX_FILE_SIZE + 1) 0)
    rfl (by simp)
  refine ⟨⟨_, hcfs, rfl⟩, ?_⟩
  have hload := secure_load_file_text fsBig [] "/" "/big.txt" ["big.txt"] rfl rfl
  rw [hload, secure_text_process_of_size_error fsBig ["big.txt"] _ hcfs]

/-- Witness for C5 (amended) at concrete files at and over the limit. -/
theorem file_size_boundary_witness :
    check_file_size fsAtLimit ["ok.txt"] MAX_FILE_SIZE = .ok () ∧
    ((∃ e, check_file_size fsBig ["big.txt"] MAX_FILE_SIZE = .error e ∧ e.kind = .fileSize) ∧
      secure_text_process fsBig ["big.txt"] = []) :=
  ⟨(file_size_boundary fsAtLimit ["ok.txt"] (List.replicate MAX_FILE_SIZE 0) rfl).1 (by simp),
   (file_size_boundary fsBig ["big.txt"] (List.replicate (MAX_FILE_SIZE + 1) 0) rfl).2 (by simp)⟩

/-- C2 (amended). The batch operations are total: `load_directory` always
returns `Except.ok` of a (possibly empty) list — including when validation
of the requested root fails, in which case the error is caught, logged and
converted into an empty result rather than propagated — and the
`load_files` fan-out collects per-file successes while a per-file failure
contributes nothing and does not disturb its siblings. -/
theorem batch_total_and_root_errors_swallowed (fs : FileSys) (cwd : AbsPath)
    (base : String) (traverseFn : AbsPath → Except PyErr (List AbsPath)) (dir : String)
    (loadOne : String → Except PyErr (List Document)) (pre post : List String)
    (p : String) (e : PyErr) :
    (∃ l, secure_load_directory fs cwd base traverseFn dir = Except.ok l) ∧
    ((∃ e2, validate_path cwd dir base = .error e2) →
      secure_load_directory fs cwd base traverseFn dir = .ok []) ∧
    (loadOne p = .error e →
      gather_load_files loadOne (pre ++ p :: post) = gather_load_files loadOne (pre ++ post)) := by
  refine ⟨?_, ?_, ?_⟩
  · unfold secure_load_directory
    cases hb : secure_load_directory_body fs cwd base traverseFn dir with
    | ok l => exact ⟨l, rfl⟩
    | error e2 => exact ⟨[], rfl⟩
  · rintro ⟨e2, he2⟩
    unfold secure_load_directory secure_load_directory_body
    rw [he2]
  · intro hp
    unfold gather_load_files
    simp [hp]

/-- Counterexample to C2 as stated: a root directory outside the allowed
base fails validation, yet `load_directory` returns a normal, empty result
instead of a failed call. -/
theorem root_error_returns_empty_counterexample :
    (∃ e, validate_path ["home", "user"] "/etc" "/data" = .error e ∧ e.kind = .pathTraversal) ∧
    secure_load_directory fsNone ["home", "user"] "/data" trvNone "/etc" = .ok [] := by
  exact ⟨⟨_, rfl, rfl⟩, rfl⟩

/-- Witness for C2 (amended) at a concrete bad root and a concrete failing
batch member. -/
theorem batch_total_witness :
    secure_load_directory fsNone ["home", "user"] "/data" trvNone "/etc" = .ok [] ∧
    gather_load_files loadOneW (["a"] ++ "bad" :: ["b"]) =
      gather_load_files loadOneW (["a"] ++ ["b"]) :=
  ⟨(batch_total_and_root_errors_swallowed fsNone ["home", "user"] "/data" trvNone "/etc"
      loadOneW ["a"] ["b"] "bad" ⟨.otherErr, "boom"⟩).2.1 ⟨_, rfl⟩,
   (batch_total_and_root_errors_swallowed fsNone ["home", "user"] "/data" trvNone "/etc"
      loadOneW ["a"] ["b"] "bad" ⟨.otherErr, "boom"⟩).2.2 rfl⟩

/-- Membership in one `traverse` step. -/
theorem mem_traverse_node (pol : TraversePolicy) (dirs : List (String × FSTree))
    (files : List String) (p : List String) :
    p ∈ traverse pol (.node dirs files) ↔
      (∃ f, f ∈ files ∧ should_skip_file pol f = false ∧ p = [f]) ∨
      (∃ m sub, (m, sub) ∈ dirs ∧ should_skip_directory pol m = false ∧
        ∃ q, q ∈ traverse pol sub ∧ p = m :: q) := by
  rw [traverse]
  simp only [List.mem_append, List.mem_map, List.mem_filter, List.mem_flatten,
    List.mem_attach, true_and, Subtype.exists, Bool.not_eq_true']
  constructor
  · rintro (⟨f, ⟨hf, hsf⟩, rfl⟩ | ⟨l, ⟨⟨m, sub⟩, hmem, rfl⟩, hl⟩)
    · exact Or.inl ⟨f, hf, hsf, rfl⟩
    · by_cases hsd : should_skip_directory pol m
      · rw [if_pos hsd] at hl
        exact absurd hl (List.not_mem_nil p)
      · rw [if_neg hsd] at hl
        obtain ⟨q, hq, rfl⟩ := List.mem_map.mp hl
        exact Or.inr ⟨m, sub, hmem, Bool.not_eq_true _ ▸ eq_false_of_ne_true hsd, q, hq, rfl⟩
  · rintro (⟨f, hf, hsf, rfl⟩ | ⟨m, sub, hmem, hsd, q, hq, rfl⟩)
    · exact Or.inl ⟨f, ⟨hf, hsf⟩, rfl⟩
    · refine Or.inr ⟨(traverse pol sub).map (fun r => m :: r), ⟨⟨m, sub⟩, hmem, ?_⟩, ?_⟩
      · rw [if_neg (by simp [hsd])]
      · exact List.mem_map.mpr ⟨q, hq, rfl⟩

/-- Membership in one `openedDirs` step. -/
theorem mem_openedDirs_node (pol : TraversePolicy) (dirs : List (String × FSTree))
    (files : List String) (p : List String) :
    p ∈ openedDirs pol (.node dirs files) ↔
      p = [] ∨
      (∃ m sub, (m, sub) ∈ dirs ∧ should_skip_directory pol m = false ∧
        ∃ q, q ∈ openedDirs pol sub ∧ p = m :: q) := by
  rw [openedDirs]
  simp only [List.mem_cons, List.mem_flatten, List.mem_map, List.mem_attach, true_and,
    Subtype.exists]
  constructor
  · rintro (rfl | ⟨l, ⟨⟨m, sub⟩, hmem, rfl⟩, hl⟩)
    · exact Or.inl rfl
    · by_cases hsd : should_skip_directory pol m
      · rw [if_pos hsd] at hl
        exact absurd hl (List.not_mem_nil p)
      · rw [if_neg hsd] at hl
        obtain ⟨q, hq, rfl⟩ := List.mem_map.mp hl
        exact Or.inr ⟨m, sub, hmem, Bool.not_eq_true _ ▸ eq_false_of_ne_true hsd, q, hq, rfl⟩
  · rintro (rfl | ⟨m, sub, hmem, hsd, q, hq, rfl⟩)
    · exact Or.inl rfl
    · refine Or.inr ⟨(openedDirs pol sub).map (fun r => m :: r), ⟨⟨m, sub⟩, hmem, ?_⟩, ?_⟩
      · rw [if_neg (by simp [hsd])]
      · exact List.mem_map.mpr ⟨q, hq, rfl⟩

/-- C6. Every file the traversal yields lies along a chain of non-skipped
directory names and bears a non-skipped file name (no dot-prefixed or
skip-set directory component, no dot-prefixed or backup `~` file when the
policy says so); and every directory the walk opens — other than the root —
survives the skip rules, so a skipped directory is never opened. -/
theorem traverse_skip_rules (pol : TraversePolicy) (t : FSTree) :
    (∀ p ∈ traverse pol t, ∃ ds f, p = ds ++ [f] ∧
      (∀ d ∈ ds, should_skip_directory pol d = false) ∧
      should_skip_file pol f = false) ∧
    (∀ q ∈ openedDirs pol t, ∀ d ∈ q, should_skip_directory pol d = false) := by
  suffices H : ∀ n, ∀ t : FSTree, sizeOf t ≤ n →
      (∀ p ∈ traverse pol t, ∃ ds f, p = ds ++ [f] ∧
        (∀ d ∈ ds, should_skip_directory pol d = false) ∧
        should_skip_file pol f = false) ∧
      (∀ q ∈ openedDirs pol t, ∀ d ∈ q, should_skip_directory pol d = false) from
    H (sizeOf t) t le_rfl
  intro n
  induction n with
  | zero =>
    intro t h
    cases t with
    | node dirs files => simp at h
  | succ n ih =>
    intro t hle
    cases t with
    | node dirs files =>
      have hsub : ∀ m (sub : FSTree), (m, sub) ∈ dirs → sizeOf sub ≤ n := by
        intro m sub hmem
        have h1 := List.sizeOf_lt_of_mem hmem
        simp only [Prod.mk.sizeOf_spec] at h1
        simp only [FSTree.node.sizeOf_spec] at hle
        omega
      constructor
      · intro p hp
        rw [mem_traverse_node] at hp
        rcases hp with ⟨f, _, hsf, rfl⟩ | ⟨m, sub, hmem, hsd, q, hq, rfl⟩
        · exact ⟨[], f, rfl, by simp, hsf⟩
        · obtain ⟨ds, f, rfl, hds, hf⟩ := (ih sub (hsub m sub hmem)).1 q hq
          refine ⟨m :: ds, f, rfl, ?_, hf⟩
          intro d hd
          rcases List.mem_cons.mp hd with rfl | hd2
          · exact hsd
          · exact hds d hd2
      · intro q hq
        rw [mem_openedDirs_node] at hq
        rcases hq with rfl | ⟨m, sub, hmem, hsd, r, hr, rfl⟩
        · intro d hd
          exact absurd hd (List.not_mem_nil d)
        · intro d hd
          rcases List.mem_cons.mp hd with rfl | hd2
          · exact hsd
          · exact (ih sub (hsub m sub hmem)).2 r hr d hd2

/-- Witness for C6: the discovered file `src/util.py` of a concrete tree
satisfies the skip-rule properties. -/
theorem traverse_skip_rules_witness :
    ∃ ds f, (["src", "util.py"] : List String) = ds ++ [f] ∧
      (∀ d ∈ ds, should_skip_directory polW d = false) ∧
      should_skip_file polW f = false := by
  apply (traverse_skip_rules polW treeW).1 ["src", "util.py"]
  rw [treeW, mem_traverse_node]
  right
  refine ⟨"src", .node [] ["util.py"], List.mem_cons_self _ _, by decide,
    ["util.py"], ?_, rfl⟩
  rw [mem_traverse_node]
  left
  exact ⟨"util.py", List.mem_cons_self _ _, by decide, rfl⟩

/-- One decoding step always consumes at least one byte. -/
theorem utf8DecodeOne_consumes (bs : List Nat) (cp : Nat) (rest2 : List Nat)
    (h : utf8DecodeOne bs = some (cp, rest2)) : rest2.length < bs.length := by
  cases bs with
  | nil => simp [utf8DecodeOne] at h
  | cons b t =>
    simp only [utf8DecodeOne] at h
    split_ifs at h with h1 h2 h3 h4
    · simp only [Option.some.injEq, Prod.mk.injEq] at h
      obtain ⟨-, rfl⟩ := h
      simp
    · cases t with
      | nil => simp at h
      | cons b2 t2 =>
        dsimp only at h
        split_ifs at h
        simp only [Option.some.injEq, Prod.mk.injEq] at h
        obtain ⟨-, rfl⟩ := h
        simp
        omega
    · cases t with
      | nil => simp at h
      | cons b2 t2 =>
        cases t2 with
        | nil => simp at h
        | cons b3 t3 =>
          dsimp only at h
          split_ifs at h
          simp only [Option.some.injEq, Prod.mk.injEq] at h
          obtain ⟨-, rfl⟩ := h
          simp
          omega
    · cases t with
      | nil => simp at h
      | cons b2 t2 =>
        cases t2 with
        | nil => simp at h
        | cons b3 t3 =>
          cases t3 with
          | nil => simp at h
          | cons b4 t4 =>
            dsimp only at h
            split_ifs at h
            simp only [Option.some.injEq, Prod.mk.injEq] at h
            obtain ⟨-, rfl⟩ := h
            simp
            omega

/-- The fuel of `utf8DecodeCore` is irrelevant as soon as it covers the byte
count. -/
theorem utf8DecodeCore_fuel : ∀ (f : Nat) (bs : List Nat), bs.length ≤ f →
    utf8DecodeCore f bs = utf8DecodeCore bs.length bs := by
  intro f
  induction f using Nat.strong_induction_on with
  | _ f ih =>
    intro bs h
    cases bs with
    | nil => cases f <;> rfl
    | cons b t =>
      obtain ⟨f2, rfl⟩ : ∃ f2, f = f2 + 1 := by
        cases f with
        | zero => simp at h
        | succ f2 => exact ⟨f2, rfl⟩
      rw [show (b :: t : List Nat).length = t.length + 1 from rfl] at h ⊢
      rw [utf8DecodeCore, utf8DecodeCore]
      cases hone : utf8DecodeOne (b :: t) with
      | none => rfl
      | some pr =>
        obtain ⟨cp, rest2⟩ := pr
        have hlt := utf8DecodeOne_consumes (b :: t) cp rest2 hone
        simp only [List.length_cons] at hlt
        have e1 := ih f2 (by omega) rest2 (by omega)
        have e2 := ih t.length (by omega) rest2 (by omega)
        simp only [e1, e2]

/-- One-step equation for the whole-string decoder. -/
theorem utf8DecodeAux_step (bs : List Nat) (cp : Nat) (rest2 : List Nat)
    (h : utf8DecodeOne bs = some (cp, rest2)) :
    utf8DecodeAux bs = (utf8DecodeAux rest2).map (fun cs => cp :: cs) := by
  cases bs with
  | nil => simp [utf8DecodeOne] at h
  | cons b t =>
    have hlt := utf8DecodeOne_consumes (b :: t) cp rest2 h
    simp only [List.length_cons] at hlt
    unfold utf8DecodeAux
    rw [show (b :: t : List Nat).length = t.length + 1 from rfl, utf8DecodeCore]
    rw [h]
    simp only [utf8DecodeCore_fuel t.length rest2 (by omega)]

/-- Decoding a byte-order mark consumes it into the `U+FEFF` code point. -/
theorem utf8DecodeAux_bom (rest : List Nat) :
    utf8DecodeAux (0xEF :: 0xBB :: 0xBF :: rest) =
      (utf8DecodeAux rest).map (fun cs => 0xFEFF :: cs) :=
  utf8DecodeAux_step _ 0xFEFF rest rfl

/-- If strict UTF-8 fails on the whole byte string, `utf-8-sig` fails too
(stripping a BOM cannot repair an invalid tail, and a BOM is itself valid
UTF-8). -/
theorem utf8SigDecode_none (bs : Bytes) (h : utf8Decode bs = none) :
    utf8SigDecode bs = none := by
  unfold utf8SigDecode
  split
  · next rest =>
    unfold utf8Decode at h ⊢
    rw [utf8DecodeAux_bom] at h
    cases haux : utf8DecodeAux rest with
    | none => rfl
    | some cs => rw [haux] at h; simp at h
  · exact h

/-- C3 (amended). A readable file whose bytes are not valid UTF-8 still
yields exactly one Document and never an error or an empty result — but via
the `latin-1` leg of the encoding ladder, which decodes every byte string;
the document's metadata records `latin-1` (not the lossy binary fallback,
which is unreachable for readable files) and its content is the latin-1
reading of the bytes with universal-newline translation applied, no
replacement markers inserted. -/
theorem invalid_utf8_decodes_latin1 (fs : FileSys) (p : AbsPath) (bs : Bytes)
    (hf : fs.files p = some bs) (hu : utf8Decode bs = none) :
    text_process fs p =
      [⟨⟨univNewlines (latin1Decode bs)⟩, fileName p,
        [("encoding", "latin-1"), ("source", pathToString p)]⟩] := by
  have h1 : read_text fs p .utf8 = .error ⟨.unicodeDecode, encName .utf8⟩ := by
    simp only [read_text, hf, decodeWith, hu]
  have h2 : read_text fs p .utf8sig = .error ⟨.unicodeDecode, encName .utf8sig⟩ := by
    simp only [read_text, hf, decodeWith, utf8SigDecode_none bs hu]
  have h3 : read_text fs p .latin1 = .ok (univNewlines (latin1Decode bs)) := by
    simp only [read_text, hf, decodeWith]
  simp only [text_process, componentEncodings, text_process_loop, h1, h2, h3, encName]

/-- Counterexample to C3 as stated: the file containing the single invalid
byte `0xFF` yields one Document whose metadata records the `latin-1`
encoding — not the lossy-fallback path — and whose content carries no
`U+FFFD` replacement marker. -/
theorem invalid_utf8_no_replacement_marker :
    utf8Decode [0xFF] = none ∧
    (∃ d, text_process fsFF ["data.bin"] = [d] ∧
      d.metadata = [("encoding", "latin-1"), ("source", "/data.bin")] ∧
      d.raw_content.data.contains (Char.ofNat 0xFFFD) = false) := by
  refine ⟨rfl, ⟨⟨⟨latin1Decode [0xFF]⟩, "data.bin",
    [("encoding", "latin-1"), ("source", "/data.bin")]⟩, rfl, rfl, by decide⟩⟩

/-- Witness for C3 (amended) at a concrete invalid-UTF-8 file. -/
theorem invalid_utf8_decodes_latin1_witness :
    text_process fsFE ["x.bin"] =
      [⟨⟨univNewlines (latin1Decode [0xFE])⟩, fileName ["x.bin"],
        [("encoding", "latin-1"), ("source", pathToString ["x.bin"])]⟩] :=
  invalid_utf8_decodes_latin1 fsFE ["x.bin"] [0xFE] rfl rfl

/-- Every `Char` carries a valid Unicode scalar value. -/
theorem char_toNat_valid (c : Char) :
    c.toNat < 0xD800 ∨ (0xDFFF < c.toNat ∧ c.toNat < 0x110000) := by
  rcases c.valid with h | ⟨h1, h2⟩
  · exact Or.inl (UInt32.toNat_lt_of_lt (by decide) h)
  · exact Or.inr ⟨UInt32.lt_toNat_of_lt (by decide) h1, UInt32.toNat_lt_of_lt (by decide) h2⟩

/-- Decoding inverts encoding on one scalar value, leaving the remaining
bytes untouched. -/
theorem utf8DecodeOne_encode (n : Nat)
    (hv : n < 0xD800 ∨ (0xDFFF < n ∧ n < 0x110000)) (bs : List Nat) :
    utf8DecodeOne (utf8EncodeCp n ++ bs) = some (n, bs) := by
  unfold utf8EncodeCp
  by_cases ha : n < 0x80
  · rw [if_pos ha]
    simp only [List.cons_append, List.nil_append, utf8DecodeOne]
    rw [if_pos ha]
  · rw [if_neg ha]
    by_cases hb : n < 0x800
    · rw [if_pos hb]
      simp only [List.cons_append, List.nil_append, utf8DecodeOne]
      rw [if_neg (by omega), if_pos (by omega), if_pos (by omega)]
      have hval : (0xC0 + n / 64 - 0xC0) * 64 + (0x80 + n % 64 - 0x80) = n := by omega
      rw [hval]
    · rw [if_neg hb]
      by_cases hc : n < 0x10000
      · rw [if_pos hc]
        simp only [List.cons_append, List.nil_append, utf8DecodeOne]
        rw [if_neg (by omega), if_neg (by omega), if_pos (by omega), if_pos (by omega)]
        have hval : (0xE0 + n / 4096 - 0xE0) * 4096 + (0x80 + n / 64 % 64 - 0x80) * 64 +
            (0x80 + n % 64 - 0x80) = n := by omega
        rw [hval, if_pos (by omega)]
      · rw [if_neg hc]
        have hd : n < 0x110000 := by omega
        simp only [List.cons_append, List.nil_append, utf8DecodeOne]
        rw [if_neg (by omega), if_neg (by omega), if_neg (by omega), if_pos (by omega),
          if_pos (by omega)]
        have hval : (0xF0 + n / 262144 - 0xF0) * 262144 + (0x80 + n / 4096 % 64 - 0x80) * 4096 +
            (0x80 + n / 64 % 64 - 0x80) * 64 + (0x80 + n % 64 - 0x80) = n := by omega
        rw [hval, if_pos (by omega)]

/-- Decoding inverts encoding on a whole character list, at the code-point
level. -/
theorem utf8DecodeAux_encode (s : List Char) :
    utf8DecodeAux (utf8Encode s) = some (s.map Char.toNat) := by
  induction s with
  | nil => rfl
  | cons c cs ih =>
    have hone := utf8DecodeOne_encode c.toNat (char_toNat_valid c) (utf8Encode cs)
    have henc : utf8Encode (c :: cs) = utf8EncodeCp c.toNat ++ utf8Encode cs := by
      simp [utf8Encode]
    rw [henc, utf8DecodeAux_step _ _ _ hone, ih]
    rfl

/-- Round-trip at the text level: strict UTF-8 decoding inverts encoding. -/
theorem utf8Decode_roundtrip (s : List Char) :
    utf8Decode (utf8Encode s) = some s := by
  unfold utf8Decode
  rw [utf8DecodeAux_encode]
  simp [List.map_map, Function.comp_def, Char.ofNat_toNat]

/-- The translation worker is the identity on carriage-return-free text,
for any sufficient fuel. -/
theorem univNewlinesCore_no_cr : ∀ (f : Nat) (cs : List Char), cs.length ≤ f →
    '\r' ∉ cs → univNewlinesCore f cs = cs := by
  intro f
  induction f with
  | zero =>
    intro cs h _
    cases cs with
    | nil => rfl
    | cons c rest => simp at h
  | succ f ih =>
    intro cs h hcr
    cases cs with
    | nil => rfl
    | cons c rest =>
      have hc : ¬(c = '\r') := fun hceq => hcr (hceq ▸ List.mem_cons_self c rest)
      have hrest : '\r' ∉ rest := fun hr => hcr (List.mem_cons_of_mem c hr)
      simp only [List.length_cons] at h
      rw [univNewlinesCore, if_neg hc, ih rest (by omega) hrest]

/-- Universal-newline translation is the identity on carriage-return-free
text. -/
theorem univNewlines_no_cr (cs : List Char) (h : '\r' ∉ cs) : univNewlines cs = cs :=
  univNewlinesCore_no_cr cs.length cs le_rfl h

/-- Counterexample to C8 as stated: the round trip is not the identity on
every valid text — writing `a\r\nb` as UTF-8 and loading the file back
yields one Document whose `raw_content` is the newline-translated `a\nb`,
not the original content. -/
theorem utf8_roundtrip_crlf_counterexample :
    fsCRLF.files ["crlf.txt"] = some (utf8Encode "a\r\nb".data) ∧
    (∃ d, load_file fsCRLF ["crlf.txt"] = [d] ∧
      d.raw_content = "a\nb" ∧ d.raw_content ≠ "a\r\nb") := by
  refine ⟨rfl, ⟨⟨"a\nb", fileName ["crlf.txt"],
    [("encoding", "utf-8"), ("source", pathToString ["crlf.txt"])]⟩, rfl, rfl, by decide⟩⟩

/-- C8 (amended). Round-trip: writing any carriage-return-free text as UTF-8
bytes to a file that the registry routes to the text strategy (i.e. not a
rich-document extension) and loading it through the orchestrator's
`load_file` returns exactly one Document whose `raw_content` is the
original text and whose metadata records the encoding `utf-8` — the first
rung of the encoding ladder succeeds. (For text containing `\r`, the
content comes back with universal-newline translation applied, as the
counterexample shows.) -/
theorem utf8_roundtrip_load_file (s : String) (fs : FileSys) (p : AbsPath)
    (hf : fs.files p = some (utf8Encode s.data))
    (hcat : get_category (stripDots (strLower (pathSuffix p))) ≠ .standard)
    (hcr : '\r' ∉ s.data) :
    load_file fs p =
      [⟨s, fileName p, [("encoding", "utf-8"), ("source", pathToString p)]⟩] := by
  have hstrat : create_loader p = .text := by
    unfold create_loader create_loader_ext
    rw [if_neg hcat, ite_self]
  have hread : read_text fs p .utf8 = .ok s.data := by
    simp only [read_text, hf, decodeWith, utf8Decode_roundtrip]
    rw [univNewlines_no_cr s.data hcr]
  unfold load_file
  rw [hstrat]
  simp only [text_process, componentEncodings, text_process_loop, hread]
  rfl

/-- Witness for C8 (amended) at a concrete file `notes.txt` with content
`hello`. -/
theorem utf8_roundtrip_load_file_witness :
    load_file fsHello ["notes.txt"] =
      [⟨"hello", fileName ["notes.txt"],
        [("encoding", "utf-8"), ("source", pathToString ["notes.txt"])]⟩] :=
  utf8_roundtrip_load_file "hello" fsHello ["notes.txt"] rfl (by decide) (by decide)

end GptrMcp
